import Mathlib

/-!
Shallow embedding of the HX711 load-cell ADC driver (`src/lib.rs`) and
verification of its specification.

The driver is generic over an embedded-hal implementation: a fallible
digital input pin (DOUT), a fallible digital output pin (PD_SCK) and an
infallible microsecond delay.  We model the hardware abstraction layer as
an oracle (`Env`) that fixes, for every pin operation (indexed by how many
operations of that kind happened before), whether it succeeds and what a
read returns.  Every pin operation performed by the driver is recorded in
an event trace, so protocol-shape properties (pulse counts, sample counts,
abort-on-error) become statements about the trace.

Machine integers: the Rust code computes on `i32`.  All the arithmetic the
driver performs stays far from the 32-bit boundaries except the bitwise
sign extension in `i24_to_i32`, which we model precisely on two's
complement bit patterns modulo 2^32.
-/

/-! ## Constants (`src/lib.rs` lines 24-41) -/

/-- `pub const MAX_VALUE: i32 = (1 << 23) - 1;` -/
def MAX_VALUE : Int := 2 ^ 23 - 1

/-- `pub const MIN_VALUE: i32 = 1 << 23;` (note: no negation in the source). -/
def MIN_VALUE : Int := 2 ^ 23

/-- `const TIME_TO_SLEEP: u32 = 70;` -/
def TIME_TO_SLEEP : Nat := 70

/-- `const TIME_BEFORE_READOUT: u32 = 1;` -/
def TIME_BEFORE_READOUT : Nat := 1

/-- `const TIME_SCK_HIGH: u32 = 1;` -/
def TIME_SCK_HIGH : Nat := 1

/-- `const TIME_SCK_LOW: u32 = 1;` -/
def TIME_SCK_LOW : Nat := 1

/-! ## 32-bit two's-complement helpers and `i24_to_i32` -/

/-- The 32-bit pattern (as a natural number `< 2^32`) of an `i32` value. -/
def u32ofI32 (x : Int) : Nat := (x % 2 ^ 32).toNat

/-- The `i32` value of a 32-bit pattern. -/
def i32ofU32 (n : Nat) : Int := if n < 2 ^ 31 then (n : Int) else (n : Int) - 2 ^ 32

/-- Rust `!` (bitwise not) on `i32`: complement of the 32-bit pattern. -/
def i32not (x : Int) : Int := i32ofU32 (2 ^ 32 - 1 - u32ofI32 x)

/-- Rust `|` (bitwise or) on `i32`, via the 32-bit patterns. -/
def i32or (x y : Int) : Int := i32ofU32 (Nat.lor (u32ofI32 x) (u32ofI32 y))

/-- `fn i24_to_i32(x: i32) -> i32 { if x >= 0x800000 { x | !0xFFFFFF } else { x } }` -/
def i24_to_i32 (x : Int) : Int :=
  if x ≥ 0x800000 then i32or x (i32not 0xFFFFFF) else x

/-! ## Mode (`src/lib.rs` lines 166-175) -/

/-- The three (channel, gain) operating modes. -/
inductive Mode where
  /-- Channel A, gain 128 (discriminant 1). -/
  | ChAGain128
  /-- Channel B, gain 32 (discriminant 2). -/
  | ChBGain32
  /-- Channel A, gain 64 (discriminant 3). -/
  | ChAGain64
deriving DecidableEq, Repr

/-- The Rust discriminant (`self.mode as u16`): the trailing pulse count. -/
def Mode.toU16 : Mode → Nat
  | .ChAGain128 => 1
  | .ChBGain32 => 2
  | .ChAGain64 => 3

/-! ## Error and `nb` result types -/

/-- `pub enum Error<EIN, EOUT> { Input(EIN), Output(EOUT) }` -/
inductive Error (EIN EOUT : Type) where
  /-- Error while reading a digital pin. -/
  | Input (e : EIN)
  /-- Error while writing a digital pin. -/
  | Output (e : EOUT)
deriving DecidableEq, Repr

/-- `nb::Error<E>`: either the operation would block, or a hard error. -/
inductive NbError (E : Type) where
  /-- A conversion is not ready yet; retry later. -/
  | wouldBlock
  /-- A hard error. -/
  | other (e : E)
deriving DecidableEq, Repr

/-! ## The hardware oracle, the event trace and the driver state -/

/-- One pin operation performed by the driver, as recorded in the trace. -/
inductive Event (EIN EOUT : Type) where
  /-- PD_SCK successfully driven to the given level (`true` = high). -/
  | sck (high : Bool)
  /-- Driving PD_SCK to the given level failed with the pin's error. -/
  | sckFail (high : Bool) (e : EOUT)
  /-- DOUT successfully sampled at the given level (`true` = high). -/
  | dout (high : Bool)
  /-- Sampling DOUT failed with the pin's error. -/
  | doutFail (e : EIN)
  /-- A blocking delay of the given number of microseconds. -/
  | delay (us : Nat)
deriving DecidableEq, Repr

/-- The hardware oracle: the outcome of the `n`-th DOUT read and of the
`n`-th PD_SCK drive (which may depend on the requested level). -/
structure Env (EIN EOUT : Type) where
  dout : Nat → Except EIN Bool
  sck : Nat → Bool → Except EOUT Unit

/-- The driver (`Hx711 { delay, dout, pd_sck, mode }`) together with the
modelled world: its only data field is `mode`; the pin handles are
represented by the oracle, the per-pin operation counters and the trace of
performed operations. -/
structure Hx711 (EIN EOUT : Type) where
  env : Env EIN EOUT
  nReads : Nat
  nWrites : Nat
  mode : Mode
  trace : List (Event EIN EOUT)

namespace Hx711

variable {EIN EOUT : Type}

/-- `self.pd_sck.set_high()` / `set_low()`, recording the event. -/
def setSck (high : Bool) (s : Hx711 EIN EOUT) : Except EOUT Unit × Hx711 EIN EOUT :=
  match s.env.sck s.nWrites high with
  | .ok _ => (.ok (), { s with nWrites := s.nWrites + 1, trace := s.trace ++ [.sck high] })
  | .error e =>
      (.error e, { s with nWrites := s.nWrites + 1, trace := s.trace ++ [.sckFail high e] })

/-- `self.dout.is_high()`, recording the event. -/
def readDout (s : Hx711 EIN EOUT) : Except EIN Bool × Hx711 EIN EOUT :=
  match s.env.dout s.nReads with
  | .ok b => (.ok b, { s with nReads := s.nReads + 1, trace := s.trace ++ [.dout b] })
  | .error e => (.error e, { s with nReads := s.nReads + 1, trace := s.trace ++ [.doutFail e] })

/-- `self.delay.delay_us(us)`, recording the event. -/
def delayUs (us : Nat) (s : Hx711 EIN EOUT) : Hx711 EIN EOUT :=
  { s with trace := s.trace ++ [.delay us] }

/-- The 24-iteration bit-read loop of `retrieve` (lines 139-151), generalized
over the iteration count for induction.  Each iteration shifts the
accumulator, pulses the clock high then low, and ORs in the sampled bit. -/
def readBits : Nat → Int → Hx711 EIN EOUT →
    Except (NbError (Error EIN EOUT)) Int × Hx711 EIN EOUT
  | 0, count, s => (.ok count, s)
  | n + 1, count, s =>
    match setSck true s with
    | (.error e, s1) => (.error (.other (.Output e)), s1)
    | (.ok _, s1) =>
      match setSck false (delayUs TIME_SCK_HIGH s1) with
      | (.error e, s3) => (.error (.other (.Output e)), s3)
      | (.ok _, s3) =>
        match readDout s3 with
        | (.error e, s4) => (.error (.other (.Input e)), s4)
        | (.ok b, s4) =>
          readBits n (if b then count * 2 + 1 else count * 2) (delayUs TIME_SCK_LOW s4)

/-- The trailing mode-pulse loop of `retrieve` (lines 154-160). -/
def pulseLoop : Nat → Hx711 EIN EOUT →
    Except (NbError (Error EIN EOUT)) Unit × Hx711 EIN EOUT
  | 0, s => (.ok (), s)
  | n + 1, s =>
    match setSck true s with
    | (.error e, s1) => (.error (.other (.Output e)), s1)
    | (.ok _, s1) =>
      match setSck false (delayUs TIME_SCK_HIGH s1) with
      | (.error e, s3) => (.error (.other (.Output e)), s3)
      | (.ok _, s3) => pulseLoop n (delayUs TIME_SCK_LOW s3)

/-- `pub fn retrieve(&mut self) -> nb::Result<i32, Error<EIN, EOUT>>`. -/
def retrieve (s : Hx711 EIN EOUT) :
    Except (NbError (Error EIN EOUT)) Int × Hx711 EIN EOUT :=
  match setSck false s with
  | (.error e, s1) => (.error (.other (.Output e)), s1)
  | (.ok _, s1) =>
    match readDout s1 with
    | (.error e, s2) => (.error (.other (.Input e)), s2)
    | (.ok true, s2) => (.error .wouldBlock, s2)
    | (.ok false, s2) =>
      match readBits 24 0 (delayUs TIME_BEFORE_READOUT s2) with
      | (.error r, s4) => (.error r, s4)
      | (.ok count, s4) =>
        match pulseLoop s4.mode.toU16 s4 with
        | (.error r, s5) => (.error r, s5)
        | (.ok _, s5) => (.ok (i24_to_i32 count), s5)

/-- `pub fn get_mode(&self) -> Mode { self.mode }` -/
def get_mode (s : Hx711 EIN EOUT) : Mode := s.mode

/-- `pub fn set_mode(&mut self, mode: Mode)`: stores the mode, then performs
one (non-blocking) `retrieve`, discarding the value (`.and(Ok(()))`). -/
def set_mode (mode : Mode) (s : Hx711 EIN EOUT) :
    Except (NbError (Error EIN EOUT)) Unit × Hx711 EIN EOUT :=
  match retrieve { s with mode := mode } with
  | (.ok _, s2) => (.ok (), s2)
  | (.error r, s2) => (.error r, s2)

/-- `pub fn disable(&mut self)`: drive PD_SCK high, hold `TIME_TO_SLEEP`. -/
def disable (s : Hx711 EIN EOUT) : Except (Error EIN EOUT) Unit × Hx711 EIN EOUT :=
  match setSck true s with
  | (.error e, s1) => (.error (.Output e), s1)
  | (.ok _, s1) => (.ok (), delayUs TIME_TO_SLEEP s1)

/-- `nb::block! { self.set_mode(self.mode) }`: retry `set_mode` while it
would block.  The retry loop is fueled; `none` means the fuel ran out with
the read still not ready. -/
def blockSetMode : Nat → Mode → Hx711 EIN EOUT →
    Option (Except (Error EIN EOUT) Unit × Hx711 EIN EOUT)
  | 0, _, _ => none
  | fuel + 1, mode, s =>
    match set_mode mode s with
    | (.ok _, s1) => some (.ok (), s1)
    | (.error (.other e), s1) => some (.error e, s1)
    | (.error .wouldBlock, s1) => blockSetMode fuel mode s1

/-- `pub fn enable(&mut self)`: drive PD_SCK low, hold `TIME_SCK_LOW`, then
block on `set_mode(self.mode)`. -/
def enable (fuel : Nat) (s : Hx711 EIN EOUT) :
    Option (Except (Error EIN EOUT) Unit × Hx711 EIN EOUT) :=
  match setSck false s with
  | (.error e, s1) => some (.error (.Output e), s1)
  | (.ok _, s1) => blockSetMode fuel s1.mode (delayUs TIME_SCK_LOW s1)

/-- `pub fn reset(&mut self)`: `disable` then `enable`. -/
def reset (fuel : Nat) (s : Hx711 EIN EOUT) :
    Option (Except (Error EIN EOUT) Unit × Hx711 EIN EOUT) :=
  match disable s with
  | (.error e, s1) => some (.error e, s1)
  | (.ok _, s1) => enable fuel s1

/-- `pub fn new(delay, dout, pd_sck)`: drive PD_SCK low, build the driver
with the default mode `ChAGain128`, then `reset` it. -/
def new (fuel : Nat) (s : Hx711 EIN EOUT) :
    Option (Except (Error EIN EOUT) Unit × Hx711 EIN EOUT) :=
  match setSck false s with
  | (.error e, s1) => some (.error (.Output e), s1)
  | (.ok _, s1) => reset fuel { s1 with mode := Mode.ChAGain128 }

/-! ### Trace observables used to state the protocol-shape properties -/

/-- Is the event a (successful) clock drive? -/
def isSckEvent : Event EIN EOUT → Bool
  | .sck _ => true
  | _ => false

/-- Is the event a (successful) clock drive to high? -/
def isSckHighEvent : Event EIN EOUT → Bool
  | .sck true => true
  | _ => false

/-- Is the event a (successful) data-line sample? -/
def isDoutEvent : Event EIN EOUT → Bool
  | .dout _ => true
  | _ => false

/-- The events of one bit-read iteration whose sampled bit is `b`. -/
def bitBlock (b : Bool) : List (Event EIN EOUT) :=
  [.sck true, .delay TIME_SCK_HIGH, .sck false, .dout b, .delay TIME_SCK_LOW]

/-- The events of `n` bit-read iterations whose sampled bits are
`f start, f (start+1), ...`. -/
def bitTrace (f : Nat → Bool) : Nat → Nat → List (Event EIN EOUT)
  | _, 0 => []
  | start, n + 1 => bitBlock (f start) ++ bitTrace f (start + 1) n

/-- The events of one trailing mode pulse. -/
def pulseBlock : List (Event EIN EOUT) :=
  [.sck true, .delay TIME_SCK_HIGH, .sck false, .delay TIME_SCK_LOW]

/-- The events of `n` trailing mode pulses. -/
def pulseTrace : Nat → List (Event EIN EOUT)
  | 0 => []
  | n + 1 => pulseBlock ++ pulseTrace n

/-- `n` clean high/low clock pulse pairs (the clock projection of a pulse
train). -/
def sckPairs : Nat → List (Event EIN EOUT)
  | 0 => []
  | n + 1 => .sck true :: .sck false :: sckPairs n

/-- The accumulator value produced by `n` bit-read iterations starting from
`c`, when the sampled bits are given by `f`. -/
def bitsVal (f : Nat → Bool) : Nat → Nat → Int → Int
  | _, 0, c => c
  | start, n + 1, c => bitsVal f (start + 1) n (if f start then c * 2 + 1 else c * 2)

/-- The number of clock-high drives after the last data-line sample of a
trace: the trailing mode pulses of a completed read. -/
def trailingSck (t : List (Event EIN EOUT)) : Nat :=
  (t.reverse.takeWhile fun e => !isDoutEvent e).countP isSckHighEvent

/-- Advance the world: `dr` data reads, `dw` clock writes, events `t`
appended.  Every driver operation transforms the state by some `adv`. -/
def adv (dr dw : Nat) (t : List (Event EIN EOUT)) (s : Hx711 EIN EOUT) : Hx711 EIN EOUT :=
  { s with nReads := s.nReads + dr, nWrites := s.nWrites + dw, trace := s.trace ++ t }

/-! ### Concrete oracles for evaluating the theorems on closed inputs -/

/-- Infallible pins, DOUT always low (a conversion is always ready). -/
def envAllLow : Env Unit Unit := ⟨fun _ => .ok false, fun _ _ => .ok ()⟩

/-- Infallible pins, DOUT always high (a conversion is never ready). -/
def envAllHigh : Env Unit Unit := ⟨fun _ => .ok true, fun _ _ => .ok ()⟩

/-- Every clock drive fails; DOUT always low. -/
def envSckFail : Env Unit Unit := ⟨fun _ => .ok false, fun _ _ => .error ()⟩

/-- A fresh driver over `envAllLow`. -/
def s0low : Hx711 Unit Unit := ⟨envAllLow, 0, 0, .ChAGain128, []⟩

/-- A fresh driver over `envAllHigh`. -/
def s0high : Hx711 Unit Unit := ⟨envAllHigh, 0, 0, .ChAGain128, []⟩

/-- A fresh driver over `envSckFail`. -/
def s0fail : Hx711 Unit Unit := ⟨envSckFail, 0, 0, .ChAGain128, []⟩

/-- Clock never fails; the `j`-th data read fails, every other read is low. -/
def envDoutFailAt (j : Nat) : Env Unit Unit :=
  ⟨fun k => if k = j then .error () else .ok false, fun _ _ => .ok ()⟩

/-- Data always reads low; the `j`-th clock drive, when requested at level
`lvl`, fails; every other drive succeeds. -/
def envSckFailAt (j : Nat) (lvl : Bool) : Env Unit Unit :=
  ⟨fun _ => .ok false, fun k l => if k = j ∧ l = lvl then .error () else .ok ()⟩

/-- A fresh driver over `envDoutFailAt j`. -/
def sDoutFailAt (j : Nat) : Hx711 Unit Unit := ⟨envDoutFailAt j, 0, 0, .ChAGain128, []⟩

/-- A fresh driver over `envSckFailAt j lvl`. -/
def sSckFailAt (j : Nat) (lvl : Bool) : Hx711 Unit Unit :=
  ⟨envSckFailAt j lvl, 0, 0, .ChAGain128, []⟩

end Hx711

/-! ## Pure facts about the signed conversion and the range constants -/

/-- ORing a 24-bit value with the mask `0xFF000000` adds the mask. -/
theorem lor_mask_eq_add (m : Nat) (hm : m < 2 ^ 24) :
    Nat.lor m 0xFF000000 = m + 0xFF000000 := by
  show m ||| 0xFF000000 = m + 0xFF000000
  have h : (0xFF000000 : Nat) = 2 ^ 24 * 255 := by norm_num
  rw [h, Nat.lor_comm, ← Nat.mul_add_lt_is_or hm 255, Nat.add_comm]

/-- On the upper half of the 24-bit range, `i24_to_i32` subtracts `2^24`. -/
theorem i24_to_i32_neg (x : Int) (h1 : 0x800000 ≤ x) (h2 : x ≤ 0xFFFFFF) :
    i24_to_i32 x = x - 0x1000000 := by
  have hx0 : (0 : Int) ≤ x := by omega
  have hmask : i32not 0xFFFFFF = -16777216 := by decide
  have hu : u32ofI32 x = x.toNat := by
    unfold u32ofI32
    rw [Int.emod_eq_of_lt hx0 (by omega)]
  have hun : u32ofI32 (-16777216) = 0xFF000000 := by decide
  have hlt : x.toNat < 2 ^ 24 := by omega
  unfold i24_to_i32
  rw [if_pos (by omega : x ≥ 0x800000), hmask]
  unfold i32or
  rw [hu, hun, lor_mask_eq_add x.toNat hlt]
  unfold i32ofU32
  rw [if_neg (by omega)]
  push_cast
  omega

/-- On the lower half of the 24-bit range, `i24_to_i32` is the identity. -/
theorem i24_to_i32_nonneg (x : Int) (h2 : x ≤ 0x7FFFFF) : i24_to_i32 x = x := by
  unfold i24_to_i32
  rw [if_neg (by omega)]

/-- C1: the signed conversion function is correct on its whole 24-bit
domain: on `[0, 0x7FFFFF]` it is the identity, on `[0x800000, 0xFFFFFF]`
it subtracts `0x1000000`; in particular `i24_to_i32 0x800000 = -8388608`
and `i24_to_i32 0x7FFFFF = 8388607`. -/
theorem i24_to_i32_sign_extension_correct (x : Int) :
    (0 ≤ x → x ≤ 0x7FFFFF → i24_to_i32 x = x) ∧
    (0x800000 ≤ x → x ≤ 0xFFFFFF → i24_to_i32 x = x - 0x1000000) ∧
    i24_to_i32 0x800000 = -8388608 ∧ i24_to_i32 0x7FFFFF = 8388607 :=
  ⟨fun _ h2 => i24_to_i32_nonneg x h2, fun h1 h2 => i24_to_i32_neg x h1 h2,
   by decide, by decide⟩

/-- Witness for C1 at the concrete inputs `5` and `0x900000`. -/
theorem i24_to_i32_sign_extension_correct_witness :
    i24_to_i32 5 = 5 ∧ i24_to_i32 0x900000 = 0x900000 - 0x1000000 :=
  ⟨(i24_to_i32_sign_extension_correct 5).1 (by decide) (by decide),
   (i24_to_i32_sign_extension_correct 0x900000).2.1 (by decide) (by decide)⟩

/-- C10: `i24_to_i32` is idempotent on the 24-bit domain. -/
theorem i24_to_i32_idempotent (x : Int) (h1 : 0 ≤ x) (h2 : x ≤ 0xFFFFFF) :
    i24_to_i32 (i24_to_i32 x) = i24_to_i32 x := by
  by_cases h : 0x800000 ≤ x
  · rw [i24_to_i32_neg x h h2]
    exact i24_to_i32_nonneg _ (by omega)
  · have e := i24_to_i32_nonneg x (by omega)
    rw [e]
    exact e

/-- Witness for C10 at the concrete input `0xABCDEF`. -/
theorem i24_to_i32_idempotent_witness :
    i24_to_i32 (i24_to_i32 0xABCDEF) = i24_to_i32 0xABCDEF :=
  i24_to_i32_idempotent 0xABCDEF (by decide) (by decide)

/-- C3 (code bug): the source defines `MIN_VALUE = 1 << 23`, that is
`+2^23`, not `-2^23`: the "Minimum ADC value" constant is larger than the
maximum, and the most negative conversion sample `i24_to_i32 0x800000 =
-2^23` lies far below it. -/
theorem min_value_constant_bug :
    MAX_VALUE = 2 ^ 23 - 1 ∧ MIN_VALUE = 2 ^ 23 ∧ MIN_VALUE ≠ -(2 ^ 23) ∧
    MAX_VALUE < MIN_VALUE ∧ i24_to_i32 0x800000 = -(2 ^ 23) ∧
    i24_to_i32 0x800000 < MIN_VALUE :=
  ⟨rfl, rfl, by decide, by decide, by decide, by decide⟩

/-! ## Protocol lemmas: single pin operations and the success path -/

namespace Hx711

variable {EIN EOUT : Type}

theorem setSck_ok (lvl : Bool) (s : Hx711 EIN EOUT) (h : s.env.sck s.nWrites lvl = .ok ()) :
    setSck lvl s = (.ok (), adv 0 1 [.sck lvl] s) := by
  simp [setSck, adv, h]

theorem setSck_fail (lvl : Bool) (e : EOUT) (s : Hx711 EIN EOUT)
    (h : s.env.sck s.nWrites lvl = .error e) :
    setSck lvl s = (.error e, adv 0 1 [.sckFail lvl e] s) := by
  simp [setSck, adv, h]

theorem readDout_ok (b : Bool) (s : Hx711 EIN EOUT) (h : s.env.dout s.nReads = .ok b) :
    readDout s = (.ok b, adv 1 0 [.dout b] s) := by
  simp [readDout, adv, h]

theorem readDout_fail (e : EIN) (s : Hx711 EIN EOUT) (h : s.env.dout s.nReads = .error e) :
    readDout s = (.error e, adv 1 0 [.doutFail e] s) := by
  simp [readDout, adv, h]

theorem delayUs_adv (us : Nat) (s : Hx711 EIN EOUT) : delayUs us s = adv 0 0 [.delay us] s := by
  simp [delayUs, adv]

theorem adv_adv (dr dw dr' dw' : Nat) (t t' : List (Event EIN EOUT)) (s : Hx711 EIN EOUT) :
    adv dr' dw' t' (adv dr dw t s) = adv (dr + dr') (dw + dw') (t ++ t') s := by
  simp [adv, Nat.add_assoc, List.append_assoc]

theorem readBits_ok (f : Nat → Bool) (n : Nat) : ∀ (c : Int) (s : Hx711 EIN EOUT),
    (∀ k lvl, s.env.sck k lvl = .ok ()) → (∀ k, s.env.dout k = .ok (f k)) →
    readBits n c s = (.ok (bitsVal f s.nReads n c), adv n (2 * n) (bitTrace f s.nReads n) s) := by
  induction n with
  | zero =>
    intro c s _ _
    simp [readBits, bitsVal, bitTrace, adv]
  | succ n ih =>
    intro c s hs hd
    simp only [readBits, setSck, readDout, delayUs, hs, hd, bitsVal, bitTrace, adv]
    rw [ih]
    · simp [adv, bitBlock, List.append_assoc, Nat.add_comm, Nat.add_left_comm, Nat.add_assoc,
        Nat.mul_succ]
    · exact hs
    · exact hd

theorem pulseLoop_ok (n : Nat) : ∀ (s : Hx711 EIN EOUT),
    (∀ k lvl, s.env.sck k lvl = .ok ()) →
    pulseLoop n s = (.ok (), adv 0 (2 * n) (pulseTrace n) s) := by
  induction n with
  | zero => intro s _; simp [pulseLoop, pulseTrace, adv]
  | succ n ih =>
    intro s hs
    simp only [pulseLoop, setSck, delayUs, hs]
    rw [ih]
    · simp [adv, pulseTrace, pulseBlock, List.append_assoc, Nat.add_comm, Nat.add_left_comm,
        Nat.add_assoc, Nat.mul_succ]
    · exact hs

theorem retrieve_ok (s : Hx711 EIN EOUT) (f : Nat → Bool)
    (hs : ∀ k lvl, s.env.sck k lvl = .ok ()) (hd : ∀ k, s.env.dout k = .ok (f k))
    (hready : f s.nReads = false) :
    retrieve s = (.ok (i24_to_i32 (bitsVal f (s.nReads + 1) 24 0)),
      adv 25 (49 + 2 * s.mode.toU16)
        ([.sck false, .dout false, .delay TIME_BEFORE_READOUT]
          ++ bitTrace f (s.nReads + 1) 24 ++ pulseTrace s.mode.toU16) s) := by
  simp only [retrieve, setSck, readDout, delayUs, hs, hd, hready]
  rw [readBits_ok f 24]
  · simp only [adv]
    rw [pulseLoop_ok]
    · simp [adv, List.append_assoc, Nat.add_comm, Nat.add_left_comm, Nat.add_assoc]
    · exact hs
  · exact hs
  · exact hd

/-! ## Frame lemmas: the driver never changes the oracle, and only
`set_mode` (and `new`) change the stored mode -/

theorem readBits_frame (n : Nat) : ∀ (c : Int) (s : Hx711 EIN EOUT),
    ((readBits n c s).2).mode = s.mode ∧ ((readBits n c s).2).env = s.env := by
  induction n with
  | zero => intro c s; exact ⟨rfl, rfl⟩
  | succ n ih =>
    intro c s
    cases h1 : s.env.sck s.nWrites true with
    | error e => simp [readBits, setSck_fail true e s h1, adv]
    | ok u =>
      cases u
      simp only [readBits, setSck_ok true s h1, delayUs_adv, adv_adv]
      cases h2 : s.env.sck (s.nWrites + 1) false with
      | error e =>
        rw [setSck_fail false e _ (by simpa [adv] using h2)]
        simp [adv]
      | ok u2 =>
        cases u2
        rw [setSck_ok false _ (by simpa [adv] using h2)]
        simp only [adv_adv]
        cases h3 : s.env.dout s.nReads with
        | error e =>
          rw [readDout_fail e _ (by simpa [adv] using h3)]
          simp [adv]
        | ok b =>
          rw [readDout_ok b _ (by simpa [adv] using h3)]
          simp only [delayUs_adv, adv_adv]
          have := ih (if b then c * 2 + 1 else c * 2)
            (adv 1 2 ([Event.sck true] ++ [Event.delay TIME_SCK_HIGH] ++ [Event.sck false]
              ++ [Event.dout b] ++ [Event.delay TIME_SCK_LOW]) s)
          simpa [adv] using this

theorem pulseLoop_frame (n : Nat) : ∀ (s : Hx711 EIN EOUT),
    ((pulseLoop n s).2).mode = s.mode ∧ ((pulseLoop n s).2).env = s.env := by
  induction n with
  | zero => intro s; exact ⟨rfl, rfl⟩
  | succ n ih =>
    intro s
    cases h1 : s.env.sck s.nWrites true with
    | error e => simp [pulseLoop, setSck_fail true e s h1, adv]
    | ok u =>
      cases u
      simp only [pulseLoop, setSck_ok true s h1, delayUs_adv, adv_adv]
      cases h2 : s.env.sck (s.nWrites + 1) false with
      | error e =>
        rw [setSck_fail false e _ (by simpa [adv] using h2)]
        simp [adv]
      | ok u2 =>
        cases u2
        rw [setSck_ok false _ (by simpa [adv] using h2)]
        simp only [delayUs_adv, adv_adv]
        simpa [adv] using ih (adv 0 2 ([Event.sck true] ++ [Event.delay TIME_SCK_HIGH]
          ++ [Event.sck false] ++ [Event.delay TIME_SCK_LOW]) s)

theorem retrieve_frame (s : Hx711 EIN EOUT) :
    ((retrieve s).2).mode = s.mode ∧ ((retrieve s).2).env = s.env := by
  cases h1 : s.env.sck s.nWrites false with
  | error e => simp [retrieve, setSck_fail false e s h1, adv]
  | ok u =>
    cases u
    simp only [retrieve, setSck_ok false s h1]
    cases h2 : s.env.dout s.nReads with
    | error e =>
      rw [readDout_fail e _ (by simpa [adv] using h2)]
      simp [adv]
    | ok b =>
      rw [readDout_ok b _ (by simpa [adv] using h2)]
      cases b with
      | true => simp [adv]
      | false =>
        simp only [delayUs_adv, adv_adv]
        rcases hr : readBits 24 0 (adv 1 1 ([Event.sck false] ++ [Event.dout false]
          ++ [Event.delay TIME_BEFORE_READOUT]) s) with ⟨r4, s4⟩
        have hf4 := readBits_frame 24 0 (adv 1 1 ([Event.sck false] ++ [Event.dout false]
          ++ [Event.delay TIME_BEFORE_READOUT]) s)
        rw [hr] at hf4
        cases r4 with
        | error e => simpa [adv] using hf4
        | ok v =>
          dsimp only []
          rcases hp : pulseLoop s4.mode.toU16 s4 with ⟨r5, s5⟩
          have hf5 := pulseLoop_frame s4.mode.toU16 s4
          rw [hp] at hf5
          cases r5 with
          | error e =>
            simp only []
            exact ⟨hf5.1.trans (by simpa [adv] using hf4.1),
              hf5.2.trans (by simpa [adv] using hf4.2)⟩
          | ok u5 =>
            simp only []
            exact ⟨hf5.1.trans (by simpa [adv] using hf4.1),
              hf5.2.trans (by simpa [adv] using hf4.2)⟩

/-! ## The not-ready path and `set_mode` -/

theorem retrieve_wouldBlock (s : Hx711 EIN EOUT)
    (h1 : s.env.sck s.nWrites false = .ok ()) (h2 : s.env.dout s.nReads = .ok true) :
    retrieve s = (.error .wouldBlock, adv 1 1 [.sck false, .dout true] s) := by
  simp only [retrieve, setSck_ok false s h1]
  rw [readDout_ok true _ (by simpa [adv] using h2)]
  simp [adv_adv, adv]

theorem set_mode_mode (m : Mode) (s : Hx711 EIN EOUT) : ((set_mode m s).2).mode = m := by
  rcases hr : retrieve { s with mode := m } with ⟨r, s2⟩
  have hm := (retrieve_frame { s with mode := m }).1
  rw [hr] at hm
  cases r <;> simp_all [set_mode, hr]

theorem set_mode_env (m : Mode) (s : Hx711 EIN EOUT) : ((set_mode m s).2).env = s.env := by
  rcases hr : retrieve { s with mode := m } with ⟨r, s2⟩
  have hm := (retrieve_frame { s with mode := m }).2
  rw [hr] at hm
  cases r <;> simp_all [set_mode, hr]

theorem set_mode_wouldBlock (m : Mode) (s : Hx711 EIN EOUT)
    (h1 : s.env.sck s.nWrites false = .ok ()) (h2 : s.env.dout s.nReads = .ok true) :
    set_mode m s = (.error .wouldBlock, adv 1 1 [.sck false, .dout true] { s with mode := m }) := by
  have hw := retrieve_wouldBlock { s with mode := m } h1 h2
  simp [set_mode, hw]

theorem set_mode_ok (m : Mode) (s : Hx711 EIN EOUT) (f : Nat → Bool)
    (hs : ∀ k lvl, s.env.sck k lvl = .ok ()) (hd : ∀ k, s.env.dout k = .ok (f k))
    (hready : f s.nReads = false) :
    set_mode m s = (.ok (), adv 25 (49 + 2 * m.toU16)
      ([.sck false, .dout false, .delay TIME_BEFORE_READOUT]
        ++ bitTrace f (s.nReads + 1) 24 ++ pulseTrace m.toU16) { s with mode := m }) := by
  have h := retrieve_ok { s with mode := m } f hs hd hready
  simp [set_mode, h]

/-! ## Mode tracking through the power-control sequences -/

theorem disable_mode (s : Hx711 EIN EOUT) : ((disable s).2).mode = s.mode := by
  cases h : s.env.sck s.nWrites true <;> simp [disable, setSck, delayUs, h]

theorem blockSetMode_mode (fuel : Nat) : ∀ (m : Mode) (s : Hx711 EIN EOUT) res s',
    blockSetMode fuel m s = some (res, s') → s'.mode = m := by
  induction fuel with
  | zero => intro m s res s' h; simp [blockSetMode] at h
  | succ fuel ih =>
    intro m s res s' h
    rcases hsm : set_mode m s with ⟨r, s1⟩
    have hm1 : s1.mode = m := by
      have := set_mode_mode m s
      rw [hsm] at this
      exact this
    rw [blockSetMode, hsm] at h
    cases r with
    | ok u =>
      simp at h
      rw [← h.2]
      exact hm1
    | error nb =>
      cases nb with
      | wouldBlock => exact ih m s1 res s' h
      | other e =>
        simp at h
        rw [← h.2]
        exact hm1

theorem enable_mode (fuel : Nat) (s : Hx711 EIN EOUT) (res : Except (Error EIN EOUT) Unit)
    (s' : Hx711 EIN EOUT) (h : enable fuel s = some (res, s')) : s'.mode = s.mode := by
  rw [enable] at h
  cases h1 : s.env.sck s.nWrites false with
  | error e =>
    rw [setSck_fail false e s h1] at h
    simp at h
    rw [← h.2]
    simp [adv]
  | ok u =>
    cases u
    rw [setSck_ok false s h1] at h
    simp only [] at h
    have := blockSetMode_mode fuel _ _ res s' h
    simpa [adv] using this

theorem reset_mode (fuel : Nat) (s : Hx711 EIN EOUT) (res : Except (Error EIN EOUT) Unit)
    (s' : Hx711 EIN EOUT) (h : reset fuel s = some (res, s')) : s'.mode = s.mode := by
  rw [reset] at h
  rcases hd : disable s with ⟨rd, sd⟩
  have hdm : sd.mode = s.mode := by
    have := disable_mode s
    rw [hd] at this
    exact this
  rw [hd] at h
  cases rd with
  | error e =>
    simp at h
    rw [← h.2]
    exact hdm
  | ok u =>
    simp only [] at h
    exact (enable_mode fuel sd res s' h).trans hdm

theorem new_mode (fuel : Nat) (s : Hx711 EIN EOUT) (u : Unit) (s' : Hx711 EIN EOUT)
    (h : new fuel s = some (.ok u, s')) : s'.mode = Mode.ChAGain128 := by
  rw [new] at h
  cases h1 : s.env.sck s.nWrites false with
  | error e =>
    rw [setSck_fail false e s h1] at h
    simp at h
  | ok u0 =>
    cases u0
    rw [setSck_ok false s h1] at h
    simp only [] at h
    exact reset_mode fuel _ _ s' h

/-! ## Abort-on-error case analysis -/

theorem readBits_cases (n : Nat) : ∀ (c : Int) (s : Hx711 EIN EOUT),
    (∃ v t, (readBits n c s).1 = .ok v ∧ (readBits n c s).2.trace = s.trace ++ t) ∨
    (∃ e t k, (readBits n c s).1 = .error (.other (.Input e)) ∧
      (readBits n c s).2.trace = s.trace ++ (t ++ [.doutFail e]) ∧ s.env.dout k = .error e) ∨
    (∃ e lvl t k, (readBits n c s).1 = .error (.other (.Output e)) ∧
      (readBits n c s).2.trace = s.trace ++ (t ++ [.sckFail lvl e]) ∧
      s.env.sck k lvl = .error e) := by
  induction n with
  | zero =>
    intro c s
    exact Or.inl ⟨c, [], rfl, by simp [readBits]⟩
  | succ n ih =>
    intro c s
    cases h1 : s.env.sck s.nWrites true with
    | error e =>
      have heq : readBits (n + 1) c s
          = (.error (.other (.Output e)), adv 0 1 [.sckFail true e] s) := by
        simp only [readBits, setSck_fail true e s h1]
      refine Or.inr (Or.inr ⟨e, true, [], s.nWrites, ?_, ?_, h1⟩) <;> simp [heq, adv]
    | ok u =>
      cases u
      cases h2 : s.env.sck (s.nWrites + 1) false with
      | error e =>
        have heq : readBits (n + 1) c s = (.error (.other (.Output e)),
            adv 0 2 ([Event.sck true] ++ [Event.delay TIME_SCK_HIGH]
              ++ [Event.sckFail false e]) s) := by
          simp only [readBits, setSck_ok true s h1, delayUs_adv, adv_adv]
          rw [setSck_fail false e _ (by simpa [adv] using h2)]
          simp [adv_adv]
        refine Or.inr (Or.inr ⟨e, false, [Event.sck true, Event.delay TIME_SCK_HIGH],
          s.nWrites + 1, ?_, ?_, h2⟩) <;> simp [heq, adv]
      | ok u2 =>
        cases u2
        cases h3 : s.env.dout s.nReads with
        | error e =>
          have heq : readBits (n + 1) c s = (.error (.other (.Input e)),
              adv 1 2 ([Event.sck true] ++ [Event.delay TIME_SCK_HIGH] ++ [Event.sck false]
                ++ [Event.doutFail e]) s) := by
            simp only [readBits, setSck_ok true s h1, delayUs_adv, adv_adv]
            rw [setSck_ok false _ (by simpa [adv] using h2)]
            simp only [adv_adv]
            rw [readDout_fail e _ (by simpa [adv] using h3)]
            simp [adv_adv]
          refine Or.inr (Or.inl ⟨e, [Event.sck true, Event.delay TIME_SCK_HIGH, Event.sck false],
            s.nReads, ?_, ?_, h3⟩) <;> simp [heq, adv]
        | ok b =>
          have heq : readBits (n + 1) c s = readBits n (if b then c * 2 + 1 else c * 2)
              (adv 1 2 ([Event.sck true] ++ [Event.delay TIME_SCK_HIGH] ++ [Event.sck false]
                ++ [Event.dout b] ++ [Event.delay TIME_SCK_LOW]) s) := by
            simp only [readBits, setSck_ok true s h1, delayUs_adv, adv_adv]
            rw [setSck_ok false _ (by simpa [adv] using h2)]
            simp only [adv_adv]
            rw [readDout_ok b _ (by simpa [adv] using h3)]
            simp [delayUs_adv, adv_adv]
          rw [heq]
          rcases ih (if b then c * 2 + 1 else c * 2)
              (adv 1 2 ([Event.sck true] ++ [Event.delay TIME_SCK_HIGH] ++ [Event.sck false]
                ++ [Event.dout b] ++ [Event.delay TIME_SCK_LOW]) s) with
            ⟨v, t, hv, ht⟩ | ⟨e, t, k, he, ht, hk⟩ | ⟨e, lvl, t, k, he, ht, hk⟩
          · refine Or.inl ⟨v, [Event.sck true, Event.delay TIME_SCK_HIGH, Event.sck false,
              Event.dout b, Event.delay TIME_SCK_LOW] ++ t, hv, ?_⟩
            rw [ht]
            simp [adv, List.append_assoc]
          · refine Or.inr (Or.inl ⟨e, [Event.sck true, Event.delay TIME_SCK_HIGH, Event.sck false,
              Event.dout b, Event.delay TIME_SCK_LOW] ++ t, k, he, ?_, hk⟩)
            rw [ht]
            simp [adv, List.append_assoc]
          · refine Or.inr (Or.inr ⟨e, lvl, [Event.sck true, Event.delay TIME_SCK_HIGH,
              Event.sck false, Event.dout b, Event.delay TIME_SCK_LOW] ++ t, k, he, ?_, hk⟩)
            rw [ht]
            simp [adv, List.append_assoc]

theorem pulseLoop_cases (n : Nat) : ∀ (s : Hx711 EIN EOUT),
    (∃ t, (pulseLoop n s).1 = .ok () ∧ (pulseLoop n s).2.trace = s.trace ++ t) ∨
    (∃ e lvl t k, (pulseLoop n s).1 = .error (.other (.Output e)) ∧
      (pulseLoop n s).2.trace = s.trace ++ (t ++ [.sckFail lvl e]) ∧
      s.env.sck k lvl = .error e) := by
  induction n with
  | zero =>
    intro s
    exact Or.inl ⟨[], rfl, by simp [pulseLoop]⟩
  | succ n ih =>
    intro s
    cases h1 : s.env.sck s.nWrites true with
    | error e =>
      have heq : pulseLoop (n + 1) s
          = (.error (.other (.Output e)), adv 0 1 [.sckFail true e] s) := by
        simp only [pulseLoop, setSck_fail true e s h1]
      refine Or.inr ⟨e, true, [], s.nWrites, ?_, ?_, h1⟩ <;> simp [heq, adv]
    | ok u =>
      cases u
      cases h2 : s.env.sck (s.nWrites + 1) false with
      | error e =>
        have heq : pulseLoop (n + 1) s = (.error (.other (.Output e)),
            adv 0 2 ([Event.sck true] ++ [Event.delay TIME_SCK_HIGH]
              ++ [Event.sckFail false e]) s) := by
          simp only [pulseLoop, setSck_ok true s h1, delayUs_adv, adv_adv]
          rw [setSck_fail false e _ (by simpa [adv] using h2)]
          simp [adv_adv]
        refine Or.inr ⟨e, false, [Event.sck true, Event.delay TIME_SCK_HIGH],
          s.nWrites + 1, ?_, ?_, h2⟩ <;> simp [heq, adv]
      | ok u2 =>
        cases u2
        have heq : pulseLoop (n + 1) s = pulseLoop n
            (adv 0 2 ([Event.sck true] ++ [Event.delay TIME_SCK_HIGH] ++ [Event.sck false]
              ++ [Event.delay TIME_SCK_LOW]) s) := by
          simp only [pulseLoop, setSck_ok true s h1, delayUs_adv, adv_adv]
          rw [setSck_ok false _ (by simpa [adv] using h2)]
          simp [delayUs_adv, adv_adv]
        rw [heq]
        rcases ih (adv 0 2 ([Event.sck true] ++ [Event.delay TIME_SCK_HIGH] ++ [Event.sck false]
            ++ [Event.delay TIME_SCK_LOW]) s) with ⟨t, hv, ht⟩ | ⟨e, lvl, t, k, he, ht, hk⟩
        · refine Or.inl ⟨[Event.sck true, Event.delay TIME_SCK_HIGH, Event.sck false,
            Event.delay TIME_SCK_LOW] ++ t, hv, ?_⟩
          rw [ht]
          simp [adv, List.append_assoc]
        · refine Or.inr ⟨e, lvl, [Event.sck true, Event.delay TIME_SCK_HIGH, Event.sck false,
            Event.delay TIME_SCK_LOW] ++ t, k, he, ?_, hk⟩
          rw [ht]
          simp [adv, List.append_assoc]

/-- Converse direction of error propagation: every error result of
`retrieve` wraps an error the oracle actually produced, with the kind
matching the failed operation, and the failing operation is the last pin
operation of the call; the only other outcomes are success and would-block. -/
theorem retrieve_result_cases (s : Hx711 EIN EOUT) :
    (∃ v, (retrieve s).1 = .ok v) ∨
    ((retrieve s).1 = .error .wouldBlock) ∨
    (∃ e t, (retrieve s).1 = .error (.other (.Input e)) ∧
      (retrieve s).2.trace = s.trace ++ (t ++ [.doutFail e]) ∧ ∃ k, s.env.dout k = .error e) ∨
    (∃ e lvl t, (retrieve s).1 = .error (.other (.Output e)) ∧
      (retrieve s).2.trace = s.trace ++ (t ++ [.sckFail lvl e]) ∧
      ∃ k, s.env.sck k lvl = .error e) := by
  cases h1 : s.env.sck s.nWrites false with
  | error e =>
    have heq : retrieve s = (.error (.other (.Output e)), adv 0 1 [.sckFail false e] s) := by
      simp only [retrieve, setSck_fail false e s h1]
    refine Or.inr (Or.inr (Or.inr ⟨e, false, [], ?_, ?_, s.nWrites, h1⟩)) <;> simp [heq, adv]
  | ok u =>
    cases u
    cases h2 : s.env.dout s.nReads with
    | error e =>
      have heq : retrieve s = (.error (.other (.Input e)),
          adv 1 1 ([Event.sck false] ++ [Event.doutFail e]) s) := by
        simp only [retrieve, setSck_ok false s h1]
        rw [readDout_fail e _ (by simpa [adv] using h2)]
        simp [adv_adv]
      refine Or.inr (Or.inr (Or.inl ⟨e, [Event.sck false], ?_, ?_, s.nReads, h2⟩)) <;>
        simp [heq, adv]
    | ok b =>
      cases b with
      | true => exact Or.inr (Or.inl (by simp [retrieve_wouldBlock s h1 h2]))
      | false =>
        rcases hr : readBits 24 0 (adv 1 1 ([Event.sck false] ++ [Event.dout false]
            ++ [Event.delay TIME_BEFORE_READOUT]) s) with ⟨r4, s4⟩
        have hc := readBits_cases 24 0 (adv 1 1 ([Event.sck false] ++ [Event.dout false]
            ++ [Event.delay TIME_BEFORE_READOUT]) s)
        have henv := (readBits_frame 24 0 (adv 1 1 ([Event.sck false] ++ [Event.dout false]
            ++ [Event.delay TIME_BEFORE_READOUT]) s)).2
        rw [hr] at hc henv
        rcases hc with ⟨v, t, hv, ht⟩ | ⟨e, t, k, he, ht, hk⟩ | ⟨e, lvl, t, k, he, ht, hk⟩
        · simp only [] at hv ht
          subst hv
          rcases hp : pulseLoop s4.mode.toU16 s4 with ⟨r5, s5⟩
          have hc5 := pulseLoop_cases s4.mode.toU16 s4
          rw [hp] at hc5
          rcases hc5 with ⟨t5, hv5, ht5⟩ | ⟨e5, lvl5, t5, k5, he5, ht5, hk5⟩
          · simp only [] at hv5
            subst hv5
            have heq : retrieve s = (.ok (i24_to_i32 v), s5) := by
              simp only [retrieve, setSck_ok false s h1]
              rw [readDout_ok false _ (by simpa [adv] using h2)]
              simp only [delayUs_adv, adv_adv]
              simp only [Nat.zero_add, Nat.add_zero, ← List.append_assoc]
              rw [hr]
              dsimp only []
              rw [hp]
            exact Or.inl ⟨i24_to_i32 v, by simp [heq]⟩
          · simp only [] at he5 ht5
            subst he5
            have heq : retrieve s = (.error (.other (.Output e5)), s5) := by
              simp only [retrieve, setSck_ok false s h1]
              rw [readDout_ok false _ (by simpa [adv] using h2)]
              simp only [delayUs_adv, adv_adv]
              simp only [Nat.zero_add, Nat.add_zero, ← List.append_assoc]
              rw [hr]
              dsimp only []
              rw [hp]
            have hk5' : s.env.sck k5 lvl5 = .error e5 := by
              rw [henv] at hk5
              simpa [adv] using hk5
            refine Or.inr (Or.inr (Or.inr ⟨e5, lvl5,
              ([Event.sck false] ++ [Event.dout false] ++ [Event.delay TIME_BEFORE_READOUT])
                ++ t ++ t5, by simp [heq], ?_, k5, hk5'⟩))
            rw [heq]
            simp only []
            rw [ht5, ht]
            simp [adv, List.append_assoc]
        · simp only [] at he ht
          subst he
          have heq : retrieve s = (.error (.other (.Input e)), s4) := by
            simp only [retrieve, setSck_ok false s h1]
            rw [readDout_ok false _ (by simpa [adv] using h2)]
            simp only [delayUs_adv, adv_adv]
            simp only [Nat.zero_add, Nat.add_zero, ← List.append_assoc]
            rw [hr]
          have hk' : s.env.dout k = .error e := by simpa [adv] using hk
          refine Or.inr (Or.inr (Or.inl ⟨e,
            ([Event.sck false] ++ [Event.dout false] ++ [Event.delay TIME_BEFORE_READOUT]) ++ t,
            by simp [heq], ?_, k, hk'⟩))
          rw [heq]
          simp only []
          rw [ht]
          simp [adv, List.append_assoc]
        · simp only [] at he ht
          subst he
          have heq : retrieve s = (.error (.other (.Output e)), s4) := by
            simp only [retrieve, setSck_ok false s h1]
            rw [readDout_ok false _ (by simpa [adv] using h2)]
            simp only [delayUs_adv, adv_adv]
            simp only [Nat.zero_add, Nat.add_zero, ← List.append_assoc]
            rw [hr]
          have hk' : s.env.sck k lvl = .error e := by simpa [adv] using hk
          refine Or.inr (Or.inr (Or.inr ⟨e, lvl,
            ([Event.sck false] ++ [Event.dout false] ++ [Event.delay TIME_BEFORE_READOUT]) ++ t,
            by simp [heq], ?_, k, hk'⟩))
          rw [heq]
          simp only []
          rw [ht]
          simp [adv, List.append_assoc]

/-! ## Counting the pulses and samples of a trace -/

theorem filter_bitTrace_sck (f : Nat → Bool) (n : Nat) : ∀ (start : Nat),
    (bitTrace f start n : List (Event EIN EOUT)).filter isSckEvent = sckPairs n := by
  induction n with
  | zero => intro start; rfl
  | succ n ih =>
    intro start
    simp [bitTrace, bitBlock, sckPairs, List.filter_append, isSckEvent, ih]

theorem filter_pulseTrace_sck (n : Nat) :
    (pulseTrace n : List (Event EIN EOUT)).filter isSckEvent = sckPairs n := by
  induction n with
  | zero => rfl
  | succ n ih => simp [pulseTrace, pulseBlock, sckPairs, List.filter_append, isSckEvent, ih]

theorem sckPairs_append (m n : Nat) :
    (sckPairs (m + n) : List (Event EIN EOUT)) = sckPairs m ++ sckPairs n := by
  induction m with
  | zero => simp [sckPairs]
  | succ m ih => simp [sckPairs, Nat.succ_add, ih]

theorem countP_bitTrace_dout (f : Nat → Bool) (n : Nat) : ∀ (start : Nat),
    (bitTrace f start n : List (Event EIN EOUT)).countP isDoutEvent = n := by
  induction n with
  | zero => intro start; rfl
  | succ n ih =>
    intro start
    simp [bitTrace, bitBlock, List.countP_append, List.countP_cons, isDoutEvent, ih]

theorem countP_pulseTrace_dout (n : Nat) :
    (pulseTrace n : List (Event EIN EOUT)).countP isDoutEvent = 0 := by
  induction n with
  | zero => rfl
  | succ n ih => simp [pulseTrace, pulseBlock, List.countP_append, List.countP_cons, isDoutEvent, ih]

theorem countP_pulseTrace_sckHigh (n : Nat) :
    (pulseTrace n : List (Event EIN EOUT)).countP isSckHighEvent = n := by
  induction n with
  | zero => rfl
  | succ n ih =>
    simp [pulseTrace, pulseBlock, List.countP_append, List.countP_cons, isSckHighEvent, ih]

theorem pulseTrace_no_dout (n : Nat) :
    ∀ e ∈ (pulseTrace n : List (Event EIN EOUT)), isDoutEvent e = false := by
  induction n with
  | zero => intro e he; simp [pulseTrace] at he
  | succ n ih =>
    intro e he
    simp only [pulseTrace, pulseBlock, List.mem_append, List.mem_cons,
      List.not_mem_nil, or_false] at he
    rcases he with (h | h | h | h) | h
    · subst h; rfl
    · subst h; rfl
    · subst h; rfl
    · subst h; rfl
    · exact ih e h

theorem takeWhile_append_of_all {α : Type} (p : α → Bool) : ∀ (l r : List α),
    (∀ a ∈ l, p a = true) → (l ++ r).takeWhile p = l ++ r.takeWhile p := by
  intro l
  induction l with
  | nil => intro r _; simp
  | cons a l ih =>
    intro r h
    have ha : p a = true := h a (by simp)
    simp [List.takeWhile_cons, ha, ih r (fun b hb => h b (by simp [hb]))]

theorem trailingSck_last_dout (A B : List (Event EIN EOUT)) (b : Bool)
    (hB : ∀ e ∈ B, isDoutEvent e = false) :
    trailingSck (A ++ [Event.dout b] ++ B) = B.countP isSckHighEvent := by
  unfold trailingSck
  rw [List.reverse_append, List.reverse_append]
  rw [takeWhile_append_of_all _ B.reverse _
    (fun e he => by simp [hB e (List.mem_reverse.mp he)])]
  simp [List.takeWhile_cons, isDoutEvent, List.countP_reverse]

theorem bitTrace_snoc (f : Nat → Bool) (n : Nat) : ∀ (start : Nat),
    (bitTrace f start (n + 1) : List (Event EIN EOUT))
      = bitTrace f start n ++ bitBlock (f (start + n)) := by
  induction n with
  | zero => intro start; simp [bitTrace]
  | succ n ih =>
    intro start
    rw [show bitTrace f start (n + 1 + 1) = bitBlock (f start)
      ++ bitTrace f (start + 1) (n + 1) from rfl]
    rw [ih (start + 1)]
    simp [bitTrace, List.append_assoc, Nat.add_assoc, Nat.add_comm, Nat.add_left_comm]

theorem trailingSck_retrieve_ok (s : Hx711 EIN EOUT) (f : Nat → Bool)
    (hs : ∀ k lvl, s.env.sck k lvl = .ok ()) (hd : ∀ k, s.env.dout k = .ok (f k))
    (hready : f s.nReads = false) :
    trailingSck ((retrieve s).2.trace) = s.mode.toU16 := by
  rw [retrieve_ok s f hs hd hready]
  show trailingSck (adv 25 (49 + 2 * s.mode.toU16)
    ([.sck false, .dout false, .delay TIME_BEFORE_READOUT]
      ++ bitTrace f (s.nReads + 1) 24 ++ pulseTrace s.mode.toU16) s).trace = s.mode.toU16
  simp only [adv]
  have hshape : s.trace ++ ([Event.sck false, Event.dout false, Event.delay TIME_BEFORE_READOUT]
      ++ bitTrace f (s.nReads + 1) 24 ++ pulseTrace s.mode.toU16)
      = (s.trace ++ [Event.sck false, Event.dout false, Event.delay TIME_BEFORE_READOUT]
          ++ bitTrace f (s.nReads + 1) 23
          ++ [Event.sck true, Event.delay TIME_SCK_HIGH, Event.sck false])
        ++ [Event.dout (f (s.nReads + 1 + 23))]
        ++ ([Event.delay TIME_SCK_LOW] ++ pulseTrace s.mode.toU16) := by
    rw [show (24 : Nat) = 23 + 1 from rfl, bitTrace_snoc]
    simp [bitBlock, List.append_assoc]
  rw [hshape, trailingSck_last_dout]
  · simp [List.countP_cons, isSckHighEvent, countP_pulseTrace_sckHigh]
  · intro e he
    simp only [List.mem_append, List.mem_singleton] at he
    rcases he with h | h
    · simp [h, isDoutEvent]
    · exact pulseTrace_no_dout _ e h

/-! ## Claim theorems on the protocol state machine -/

/-- C6: calling `retrieve` while the data line reads high returns the
not-ready (would-block) status; the call performs only the initial
low-drive of the clock line and the one readiness sample (no clock pulse
is issued), and the rest of the driver state — the stored mode and the pin
oracle — is unchanged. -/
theorem retrieve_not_ready (s : Hx711 EIN EOUT)
    (h1 : s.env.sck s.nWrites false = .ok ()) (h2 : s.env.dout s.nReads = .ok true) :
    (retrieve s).1 = .error .wouldBlock ∧
    (retrieve s).2.trace = s.trace ++ [.sck false, .dout true] ∧
    (retrieve s).2.mode = s.mode ∧ (retrieve s).2.env = s.env ∧
    (retrieve s).2.nReads = s.nReads + 1 ∧ (retrieve s).2.nWrites = s.nWrites + 1 := by
  simp [retrieve_wouldBlock s h1 h2, adv]

/-- Witness for C6 on the concrete always-high oracle. -/
theorem retrieve_not_ready_witness :
    (retrieve s0high).1 = .error .wouldBlock ∧
    (retrieve s0high).2.trace = s0high.trace ++ [.sck false, .dout true] ∧
    (retrieve s0high).2.mode = s0high.mode ∧ (retrieve s0high).2.env = s0high.env ∧
    (retrieve s0high).2.nReads = s0high.nReads + 1 ∧
    (retrieve s0high).2.nWrites = s0high.nWrites + 1 :=
  retrieve_not_ready s0high rfl rfl

/-- C4: against an oracle whose pins never fail and whose data line reads
low at the readiness check (the sampled bits being given by `f`),
`retrieve` succeeds; its event trace is exactly the initial low drive, the
readiness sample and the settle delay, followed by 24 bit-read blocks and
then `pulses(mode)` trailing pulse blocks; projected to the clock line the
call is the initial low drive followed by exactly `24 + pulses(mode)`
high/low pulse pairs; the data line is sampled exactly 24 times during the
24 bit pulses and never during the trailing pulses; and `pulses(mode)` is
1, 2 or 3. -/
theorem retrieve_protocol_shape (s : Hx711 EIN EOUT) (f : Nat → Bool)
    (hs : ∀ k lvl, s.env.sck k lvl = .ok ()) (hd : ∀ k, s.env.dout k = .ok (f k))
    (hready : f s.nReads = false) :
    (retrieve s).1 = .ok (i24_to_i32 (bitsVal f (s.nReads + 1) 24 0)) ∧
    (retrieve s).2.trace.drop s.trace.length
      = [.sck false, .dout false, .delay TIME_BEFORE_READOUT]
        ++ bitTrace f (s.nReads + 1) 24 ++ pulseTrace s.mode.toU16 ∧
    ((retrieve s).2.trace.drop s.trace.length).filter isSckEvent
      = Event.sck false :: sckPairs (24 + s.mode.toU16) ∧
    (bitTrace f (s.nReads + 1) 24 : List (Event EIN EOUT)).countP isDoutEvent = 24 ∧
    (pulseTrace s.mode.toU16 : List (Event EIN EOUT)).countP isDoutEvent = 0 ∧
    1 ≤ s.mode.toU16 ∧ s.mode.toU16 ≤ 3 := by
  have h := retrieve_ok s f hs hd hready
  have htr : (retrieve s).2.trace.drop s.trace.length
      = [Event.sck false, Event.dout false, Event.delay TIME_BEFORE_READOUT]
        ++ bitTrace f (s.nReads + 1) 24 ++ pulseTrace s.mode.toU16 := by
    rw [h]
    simp [adv, List.drop_left]
  refine ⟨by simp [h], htr, ?_, countP_bitTrace_dout f 24 (s.nReads + 1),
    countP_pulseTrace_dout s.mode.toU16, ?_, ?_⟩
  · rw [htr]
    simp [List.filter_append, filter_bitTrace_sck, filter_pulseTrace_sck, isSckEvent,
      sckPairs_append]
  · cases s.mode <;> simp [Mode.toU16]
  · cases s.mode <;> simp [Mode.toU16]

/-- Witness for C4 on the concrete always-low oracle. -/
theorem retrieve_protocol_shape_witness :
    (retrieve s0low).1 = .ok (i24_to_i32 (bitsVal (fun _ => false) (s0low.nReads + 1) 24 0)) ∧
    (retrieve s0low).2.trace.drop s0low.trace.length
      = [.sck false, .dout false, .delay TIME_BEFORE_READOUT]
        ++ bitTrace (fun _ => false) (s0low.nReads + 1) 24 ++ pulseTrace s0low.mode.toU16 ∧
    ((retrieve s0low).2.trace.drop s0low.trace.length).filter isSckEvent
      = Event.sck false :: sckPairs (24 + s0low.mode.toU16) ∧
    (bitTrace (fun _ => false) (s0low.nReads + 1) 24 : List (Event Unit Unit)).countP
      isDoutEvent = 24 ∧
    (pulseTrace s0low.mode.toU16 : List (Event Unit Unit)).countP isDoutEvent = 0 ∧
    1 ≤ s0low.mode.toU16 ∧ s0low.mode.toU16 ≤ 3 :=
  retrieve_protocol_shape s0low (fun _ => false) (fun _ _ => rfl) (fun _ => rfl) rfl

/-- C7: if `set_mode m` completes successfully then `get_mode` returns `m`,
and the next retrieve — successful against an oracle whose pins never fail,
with the data line low at its readiness check — emits exactly `pulses(m)`
trailing clock pulses (clock-high drives after the last data-line sample of
its trace). -/
theorem set_mode_then_retrieve (m : Mode) (s s1 : Hx711 EIN EOUT) (f : Nat → Bool)
    (hcall : set_mode m s = (.ok (), s1))
    (hs : ∀ k lvl, s.env.sck k lvl = .ok ()) (hd : ∀ k, s.env.dout k = .ok (f k))
    (hready : f s1.nReads = false) :
    get_mode s1 = m ∧
    (retrieve s1).1 = .ok (i24_to_i32 (bitsVal f (s1.nReads + 1) 24 0)) ∧
    trailingSck ((retrieve s1).2.trace) = m.toU16 := by
  have hm : s1.mode = m := by
    have := set_mode_mode m s
    rw [hcall] at this
    exact this
  have henv : s1.env = s.env := by
    have := set_mode_env m s
    rw [hcall] at this
    exact this
  have hs1 : ∀ k lvl, s1.env.sck k lvl = .ok () := by rw [henv]; exact hs
  have hd1 : ∀ k, s1.env.dout k = .ok (f k) := by rw [henv]; exact hd
  refine ⟨by simpa [get_mode] using hm, ?_, ?_⟩
  · simp [retrieve_ok s1 f hs1 hd1 hready]
  · rw [trailingSck_retrieve_ok s1 f hs1 hd1 hready, hm]

/-- Witness for C7: set mode to Channel A gain 64 on the always-low oracle
and run the next retrieve. -/
theorem set_mode_then_retrieve_witness :
    get_mode ((set_mode Mode.ChAGain64 s0low).2) = Mode.ChAGain64 ∧
    (retrieve ((set_mode Mode.ChAGain64 s0low).2)).1
      = .ok (i24_to_i32 (bitsVal (fun _ => false)
          (((set_mode Mode.ChAGain64 s0low).2).nReads + 1) 24 0)) ∧
    trailingSck ((retrieve ((set_mode Mode.ChAGain64 s0low).2)).2.trace)
      = Mode.ChAGain64.toU16 :=
  set_mode_then_retrieve Mode.ChAGain64 s0low ((set_mode Mode.ChAGain64 s0low).2)
    (fun _ => false) rfl (fun _ _ => rfl) (fun _ => rfl) rfl

/-- C9: for every mode and driver state, whatever the outcome of the
embedded conversion read (success, would-block or pin error), after
`set_mode m` the accessor `get_mode` returns `m`: the mode is stored before
the read is attempted and never rolled back. -/
theorem set_mode_always_stores_mode (m : Mode) (s : Hx711 EIN EOUT) :
    get_mode ((set_mode m s).2) = m := by
  simpa [get_mode] using set_mode_mode m s

/-- C2 (amended): `set_mode` stores the new mode, then performs exactly one
non-blocking read-if-ready attempt and returns its status to the caller:
when the data line reads high at the readiness check, the call performs
only the initial clock low-drive and that one readiness sample — no retry —
and returns the would-block status. -/
theorem set_mode_single_attempt (m : Mode) (s : Hx711 EIN EOUT)
    (h1 : s.env.sck s.nWrites false = .ok ()) (h2 : s.env.dout s.nReads = .ok true) :
    (set_mode m s).1 = .error .wouldBlock ∧
    (set_mode m s).2.mode = m ∧
    (set_mode m s).2.trace = s.trace ++ [.sck false, .dout true] ∧
    (set_mode m s).2.nReads = s.nReads + 1 ∧ (set_mode m s).2.nWrites = s.nWrites + 1 := by
  simp [set_mode_wouldBlock m s h1 h2, adv]

/-- C2 (counterexample): on an oracle whose pins never fail but whose data
line reads high, `set_mode` returns the would-block status to its caller —
so it does not block until a conversion is available. -/
theorem set_mode_blocking_counterexample :
    (set_mode Mode.ChBGain32 s0high).1 = .error .wouldBlock := rfl

/-- Witness for the amended C2 on the concrete always-high oracle. -/
theorem set_mode_single_attempt_witness :
    (set_mode Mode.ChBGain32 s0high).1 = .error .wouldBlock ∧
    (set_mode Mode.ChBGain32 s0high).2.mode = Mode.ChBGain32 ∧
    (set_mode Mode.ChBGain32 s0high).2.trace = s0high.trace ++ [.sck false, .dout true] ∧
    (set_mode Mode.ChBGain32 s0high).2.nReads = s0high.nReads + 1 ∧
    (set_mode Mode.ChBGain32 s0high).2.nWrites = s0high.nWrites + 1 :=
  set_mode_single_attempt Mode.ChBGain32 s0high rfl rfl

/-- C8: `new` first drives the clock line low.  If that first drive fails,
construction aborts immediately: the result is the output-error kind
wrapping the pin error and the failed drive is the only event performed.
If it succeeds, `new` is exactly the reset sequence run on a driver whose
mode has already been set to the default Channel A gain 128 — so the
default mode is established before the reset runs, and every successful
construction returns a driver whose mode is `ChAGain128`. -/
theorem new_default_mode_and_first_drive (fuel : Nat) (s : Hx711 EIN EOUT) :
    (∀ e, s.env.sck s.nWrites false = .error e →
      new fuel s = some (.error (.Output e), adv 0 1 [.sckFail false e] s)) ∧
    (s.env.sck s.nWrites false = .ok () →
      new fuel s = reset fuel { adv 0 1 [.sck false] s with mode := Mode.ChAGain128 }) ∧
    (∀ u s', new fuel s = some (.ok u, s') → s'.mode = Mode.ChAGain128) := by
  refine ⟨fun e he => ?_, fun hok => ?_, fun u s' h => new_mode fuel s u s' h⟩
  · simp [new, setSck_fail false e s he]
  · simp [new, setSck_ok false s hok]

/-- Witness for C8: a failing first drive on the failing-clock oracle, and
a successful construction on the always-low oracle. -/
theorem new_default_mode_and_first_drive_witness :
    new 1 s0fail = some (.error (.Output ()), adv 0 1 [.sckFail false ()] s0fail) ∧
    new 1 s0low = reset 1 { adv 0 1 [Event.sck false] s0low with mode := Mode.ChAGain128 } ∧
    (((new 1 s0low).getD (.ok (), s0low)).2).mode = Mode.ChAGain128 :=
  ⟨(new_default_mode_and_first_drive 1 s0fail).1 () rfl,
   (new_default_mode_and_first_drive 1 s0low).2.1 rfl,
   (new_default_mode_and_first_drive 1 s0low).2.2 ()
     (((new 1 s0low).getD (.ok (), s0low)).2) (by rfl)⟩

/-! ## Forward error propagation: a pin failure at any point of the call
aborts it there, with the matching error kind and no further operation -/

/-- `readBits` succeeds when the data line never fails and the `2*n` clock
drives it performs (and no others) succeed. -/
theorem readBits_okb (f : Nat → Bool) (n : Nat) : ∀ (c : Int) (s : Hx711 EIN EOUT),
    (∀ k lvl, k < 2 * n → s.env.sck (s.nWrites + k) lvl = .ok ()) →
    (∀ k, s.env.dout k = .ok (f k)) →
    readBits n c s = (.ok (bitsVal f s.nReads n c),
      adv n (2 * n) (bitTrace f s.nReads n) s) := by
  induction n with
  | zero => intro c s _ _; simp [readBits, bitsVal, bitTrace, adv]
  | succ n ih =>
    intro c s hs hd
    have h0 : s.env.sck s.nWrites true = .ok () := by
      simpa using hs 0 true (by omega)
    simp only [readBits, setSck_ok true s h0, delayUs_adv, adv_adv]
    rw [setSck_ok false _ (by simpa [adv] using hs 1 false (by omega))]
    simp only [adv_adv]
    rw [readDout_ok (f s.nReads) _ (by simpa [adv] using hd s.nReads)]
    simp only [delayUs_adv, adv_adv]
    rw [ih]
    · simp [adv, bitTrace, bitBlock, bitsVal, List.append_assoc, Nat.add_comm,
        Nat.add_left_comm, Nat.add_assoc, Nat.mul_succ]
    · intro k lvl hk
      have := hs (2 + k) lvl (by omega)
      simpa [adv, Nat.add_comm, Nat.add_left_comm, Nat.add_assoc] using this
    · intro k
      exact hd k

/-- If the `j`-th data sample of the bit loop fails, the loop aborts with
the input-error kind right after that sample: the failing read is the last
operation performed. -/
theorem readBits_doutFail (f : Nat → Bool) (e : EIN) (n : Nat) :
    ∀ (j : Nat) (c : Int) (s : Hx711 EIN EOUT), j < n →
    (∀ k lvl, s.env.sck k lvl = .ok ()) →
    (∀ i, i < j → s.env.dout (s.nReads + i) = .ok (f (s.nReads + i))) →
    s.env.dout (s.nReads + j) = .error e →
    readBits n c s = (.error (.other (.Input e)),
      adv (j + 1) (2 * j + 2)
        (bitTrace f s.nReads j
          ++ [.sck true, .delay TIME_SCK_HIGH, .sck false, .doutFail e]) s) := by
  induction n with
  | zero => intro j c s hj _ _ _; omega
  | succ n ih =>
    intro j c s hj hs hprev hfail
    cases j with
    | zero =>
      simp only [readBits, setSck_ok true s (hs _ _), delayUs_adv, adv_adv]
      rw [setSck_ok false _ (by simpa [adv] using hs _ _)]
      simp only [adv_adv]
      rw [readDout_fail e _ (by simpa [adv] using hfail)]
      simp [adv, bitTrace, List.append_assoc]
    | succ j =>
      simp only [readBits, setSck_ok true s (hs _ _), delayUs_adv, adv_adv]
      rw [setSck_ok false _ (by simpa [adv] using hs _ _)]
      simp only [adv_adv]
      rw [readDout_ok (f s.nReads) _ (by simpa [adv] using hprev 0 (by omega))]
      simp only [delayUs_adv, adv_adv]
      rw [ih j]
      · simp [adv, adv_adv, bitTrace, bitBlock, List.append_assoc, Nat.add_comm,
          Nat.add_left_comm, Nat.add_assoc, Nat.mul_succ]
      · omega
      · exact hs
      · intro i hi
        have := hprev (i + 1) (by omega)
        simpa [adv, Nat.add_comm, Nat.add_left_comm, Nat.add_assoc] using this
      · have := hfail
        simpa [adv, Nat.add_comm, Nat.add_left_comm, Nat.add_assoc] using this

/-- If the clock-high drive of bit `p` fails, the bit loop aborts with the
output-error kind at that drive: the failing drive is the last operation. -/
theorem readBits_sckFail_high (f : Nat → Bool) (e : EOUT) (n : Nat) :
    ∀ (p : Nat) (c : Int) (s : Hx711 EIN EOUT), p < n →
    (∀ k lvl, k < 2 * p → s.env.sck (s.nWrites + k) lvl = .ok ()) →
    (∀ i, i < p → s.env.dout (s.nReads + i) = .ok (f (s.nReads + i))) →
    s.env.sck (s.nWrites + 2 * p) true = .error e →
    readBits n c s = (.error (.other (.Output e)),
      adv p (2 * p + 1) (bitTrace f s.nReads p ++ [.sckFail true e]) s) := by
  induction n with
  | zero => intro p c s hp _ _ _; omega
  | succ n ih =>
    intro p c s hp hsck hprev hfail
    cases p with
    | zero =>
      have hf : s.env.sck s.nWrites true = .error e := by simpa using hfail
      simp only [readBits, setSck_fail true e s hf]
      simp [adv, bitTrace]
    | succ p =>
      have h0 : s.env.sck s.nWrites true = .ok () := by
        simpa using hsck 0 true (by omega)
      simp only [readBits, setSck_ok true s h0, delayUs_adv, adv_adv]
      rw [setSck_ok false _ (by simpa [adv] using hsck 1 false (by omega))]
      simp only [adv_adv]
      rw [readDout_ok (f s.nReads) _ (by simpa [adv] using hprev 0 (by omega))]
      simp only [delayUs_adv, adv_adv]
      rw [ih p]
      · simp [adv, adv_adv, bitTrace, bitBlock, List.append_assoc, Nat.add_comm,
          Nat.add_left_comm, Nat.add_assoc, Nat.mul_succ]
      · omega
      · intro k lvl hk
        have := hsck (2 + k) lvl (by omega)
        simpa [adv, Nat.add_comm, Nat.add_left_comm, Nat.add_assoc] using this
      · intro i hi
        have := hprev (i + 1) (by omega)
        simpa [adv, Nat.add_comm, Nat.add_left_comm, Nat.add_assoc] using this
      · have := hfail
        simpa [adv, Nat.add_comm, Nat.add_left_comm, Nat.add_assoc, Nat.mul_succ] using this

/-- If the clock-low drive of bit `p` fails, the bit loop aborts with the
output-error kind at that drive: the failing drive is the last operation. -/
theorem readBits_sckFail_low (f : Nat → Bool) (e : EOUT) (n : Nat) :
    ∀ (p : Nat) (c : Int) (s : Hx711 EIN EOUT), p < n →
    (∀ k lvl, k < 2 * p + 1 → s.env.sck (s.nWrites + k) lvl = .ok ()) →
    (∀ i, i < p → s.env.dout (s.nReads + i) = .ok (f (s.nReads + i))) →
    s.env.sck (s.nWrites + 2 * p + 1) false = .error e →
    readBits n c s = (.error (.other (.Output e)),
      adv p (2 * p + 2)
        (bitTrace f s.nReads p ++ [.sck true, .delay TIME_SCK_HIGH, .sckFail false e]) s) := by
  induction n with
  | zero => intro p c s hp _ _ _; omega
  | succ n ih =>
    intro p c s hp hsck hprev hfail
    cases p with
    | zero =>
      have h0 : s.env.sck s.nWrites true = .ok () := by
        simpa using hsck 0 true (by omega)
      simp only [readBits, setSck_ok true s h0, delayUs_adv, adv_adv]
      rw [setSck_fail false e _ (by simpa [adv] using hfail)]
      simp [adv, adv_adv, bitTrace, List.append_assoc]
    | succ p =>
      have h0 : s.env.sck s.nWrites true = .ok () := by
        simpa using hsck 0 true (by omega)
      simp only [readBits, setSck_ok true s h0, delayUs_adv, adv_adv]
      rw [setSck_ok false _ (by simpa [adv] using hsck 1 false (by omega))]
      simp only [adv_adv]
      rw [readDout_ok (f s.nReads) _ (by simpa [adv] using hprev 0 (by omega))]
      simp only [delayUs_adv, adv_adv]
      rw [ih p]
      · simp [adv, adv_adv, bitTrace, bitBlock, List.append_assoc, Nat.add_comm,
          Nat.add_left_comm, Nat.add_assoc, Nat.mul_succ]
      · omega
      · intro k lvl hk
        have := hsck (2 + k) lvl (by omega)
        simpa [adv, Nat.add_comm, Nat.add_left_comm, Nat.add_assoc] using this
      · intro i hi
        have := hprev (i + 1) (by omega)
        simpa [adv, Nat.add_comm, Nat.add_left_comm, Nat.add_assoc] using this
      · have := hfail
        simpa [adv, Nat.add_comm, Nat.add_left_comm, Nat.add_assoc, Nat.mul_succ] using this

/-- If the clock-high drive of trailing pulse `q` fails, the pulse loop
aborts with the output-error kind at that drive. -/
theorem pulseLoop_sckFail_high (e : EOUT) (n : Nat) :
    ∀ (q : Nat) (s : Hx711 EIN EOUT), q < n →
    (∀ k lvl, k < 2 * q → s.env.sck (s.nWrites + k) lvl = .ok ()) →
    s.env.sck (s.nWrites + 2 * q) true = .error e →
    pulseLoop n s = (.error (.other (.Output e)),
      adv 0 (2 * q + 1) (pulseTrace q ++ [.sckFail true e]) s) := by
  induction n with
  | zero => intro q s hq _ _; omega
  | succ n ih =>
    intro q s hq hsck hfail
    cases q with
    | zero =>
      have hf : s.env.sck s.nWrites true = .error e := by simpa using hfail
      simp only [pulseLoop, setSck_fail true e s hf]
      simp [adv, pulseTrace]
    | succ q =>
      have h0 : s.env.sck s.nWrites true = .ok () := by
        simpa using hsck 0 true (by omega)
      simp only [pulseLoop, setSck_ok true s h0, delayUs_adv, adv_adv]
      rw [setSck_ok false _ (by simpa [adv] using hsck 1 false (by omega))]
      simp only [delayUs_adv, adv_adv]
      rw [ih q]
      · simp [adv, adv_adv, pulseTrace, pulseBlock, List.append_assoc, Nat.add_comm,
          Nat.add_left_comm, Nat.add_assoc, Nat.mul_succ]
      · omega
      · intro k lvl hk
        have := hsck (2 + k) lvl (by omega)
        simpa [adv, Nat.add_comm, Nat.add_left_comm, Nat.add_assoc] using this
      · have := hfail
        simpa [adv, Nat.add_comm, Nat.add_left_comm, Nat.add_assoc, Nat.mul_succ] using this

/-- If the clock-low drive of trailing pulse `q` fails, the pulse loop
aborts with the output-error kind at that drive. -/
theorem pulseLoop_sckFail_low (e : EOUT) (n : Nat) :
    ∀ (q : Nat) (s : Hx711 EIN EOUT), q < n →
    (∀ k lvl, k < 2 * q + 1 → s.env.sck (s.nWrites + k) lvl = .ok ()) →
    s.env.sck (s.nWrites + 2 * q + 1) false = .error e →
    pulseLoop n s = (.error (.other (.Output e)),
      adv 0 (2 * q + 2)
        (pulseTrace q ++ [.sck true, .delay TIME_SCK_HIGH, .sckFail false e]) s) := by
  induction n with
  | zero => intro q s hq _ _; omega
  | succ n ih =>
    intro q s hq hsck hfail
    cases q with
    | zero =>
      have h0 : s.env.sck s.nWrites true = .ok () := by
        simpa using hsck 0 true (by omega)
      simp only [pulseLoop, setSck_ok true s h0, delayUs_adv, adv_adv]
      rw [setSck_fail false e _ (by simpa [adv] using hfail)]
      simp [adv, adv_adv, pulseTrace, List.append_assoc]
    | succ q =>
      have h0 : s.env.sck s.nWrites true = .ok () := by
        simpa using hsck 0 true (by omega)
      simp only [pulseLoop, setSck_ok true s h0, delayUs_adv, adv_adv]
      rw [setSck_ok false _ (by simpa [adv] using hsck 1 false (by omega))]
      simp only [delayUs_adv, adv_adv]
      rw [ih q]
      · simp [adv, adv_adv, pulseTrace, pulseBlock, List.append_assoc, Nat.add_comm,
          Nat.add_left_comm, Nat.add_assoc, Nat.mul_succ]
      · omega
      · intro k lvl hk
        have := hsck (2 + k) lvl (by omega)
        simpa [adv, Nat.add_comm, Nat.add_left_comm, Nat.add_assoc] using this
      · have := hfail
        simpa [adv, Nat.add_comm, Nat.add_left_comm, Nat.add_assoc, Nat.mul_succ] using this

/-- C5: a pin failure at any point of a `retrieve` call aborts the call at
that very operation: no further pin operation is performed (the failing
operation is the last event of the call's trace, and the final state is
given exactly), and the underlying pin error is returned unmodified,
wrapped in the input-error kind for a data-line read failure and in the
output-error kind for a clock-drive failure.  The seven cases cover every
pin operation the call can perform: the readiness sample, each of the 24
bit samples, the initial low drive, the high and the low drive of each of
the 24 bit pulses, and the high and the low drive of each trailing mode
pulse. -/
theorem retrieve_error_propagation (s : Hx711 EIN EOUT) (f : Nat → Bool) :
    (∀ e : EIN, s.env.sck s.nWrites false = .ok () → s.env.dout s.nReads = .error e →
      retrieve s = (.error (.other (.Input e)), adv 1 1 [.sck false, .doutFail e] s)) ∧
    (∀ (e : EIN) (j : Nat), j < 24 →
      (∀ k lvl, s.env.sck k lvl = .ok ()) →
      s.env.dout s.nReads = .ok false →
      (∀ i, i < j → s.env.dout (s.nReads + 1 + i) = .ok (f (s.nReads + 1 + i))) →
      s.env.dout (s.nReads + 1 + j) = .error e →
      retrieve s = (.error (.other (.Input e)),
        adv (j + 2) (2 * j + 3)
          ([.sck false, .dout false, .delay TIME_BEFORE_READOUT]
            ++ bitTrace f (s.nReads + 1) j
            ++ [.sck true, .delay TIME_SCK_HIGH, .sck false, .doutFail e]) s)) ∧
    (∀ e : EOUT, s.env.sck s.nWrites false = .error e →
      retrieve s = (.error (.other (.Output e)), adv 0 1 [.sckFail false e] s)) ∧
    (∀ (e : EOUT) (p : Nat), p < 24 →
      (∀ k lvl, k < 1 + 2 * p → s.env.sck (s.nWrites + k) lvl = .ok ()) →
      s.env.dout s.nReads = .ok false →
      (∀ i, i < p → s.env.dout (s.nReads + 1 + i) = .ok (f (s.nReads + 1 + i))) →
      s.env.sck (s.nWrites + 1 + 2 * p) true = .error e →
      retrieve s = (.error (.other (.Output e)),
        adv (p + 1) (2 * p + 2)
          ([.sck false, .dout false, .delay TIME_BEFORE_READOUT]
            ++ bitTrace f (s.nReads + 1) p ++ [.sckFail true e]) s)) ∧
    (∀ (e : EOUT) (p : Nat), p < 24 →
      (∀ k lvl, k < 2 + 2 * p → s.env.sck (s.nWrites + k) lvl = .ok ()) →
      s.env.dout s.nReads = .ok false →
      (∀ i, i < p → s.env.dout (s.nReads + 1 + i) = .ok (f (s.nReads + 1 + i))) →
      s.env.sck (s.nWrites + 2 + 2 * p) false = .error e →
      retrieve s = (.error (.other (.Output e)),
        adv (p + 1) (2 * p + 3)
          ([.sck false, .dout false, .delay TIME_BEFORE_READOUT]
            ++ bitTrace f (s.nReads + 1) p
            ++ [.sck true, .delay TIME_SCK_HIGH, .sckFail false e]) s)) ∧
    (∀ (e : EOUT) (q : Nat), q < s.mode.toU16 →
      (∀ k lvl, k < 49 + 2 * q → s.env.sck (s.nWrites + k) lvl = .ok ()) →
      (∀ k, s.env.dout k = .ok (f k)) → f s.nReads = false →
      s.env.sck (s.nWrites + 49 + 2 * q) true = .error e →
      retrieve s = (.error (.other (.Output e)),
        adv 25 (2 * q + 50)
          ([.sck false, .dout false, .delay TIME_BEFORE_READOUT]
            ++ bitTrace f (s.nReads + 1) 24 ++ pulseTrace q ++ [.sckFail true e]) s)) ∧
    (∀ (e : EOUT) (q : Nat), q < s.mode.toU16 →
      (∀ k lvl, k < 50 + 2 * q → s.env.sck (s.nWrites + k) lvl = .ok ()) →
      (∀ k, s.env.dout k = .ok (f k)) → f s.nReads = false →
      s.env.sck (s.nWrites + 50 + 2 * q) false = .error e →
      retrieve s = (.error (.other (.Output e)),
        adv 25 (2 * q + 51)
          ([.sck false, .dout false, .delay TIME_BEFORE_READOUT]
            ++ bitTrace f (s.nReads + 1) 24 ++ pulseTrace q
            ++ [.sck true, .delay TIME_SCK_HIGH, .sckFail false e]) s)) := by
  refine ⟨?_, ?_, ?_, ?_, ?_, ?_, ?_⟩
  · intro e h1 h2
    simp only [retrieve, setSck_ok false s h1]
    rw [readDout_fail e _ (by simpa [adv] using h2)]
    simp [adv, adv_adv, List.append_assoc]
  · intro e j hj hs hr hprev hfail
    simp only [retrieve, setSck_ok false s (hs _ _)]
    rw [readDout_ok false _ (by simpa [adv] using hr)]
    simp only [delayUs_adv, adv_adv]
    rw [readBits_doutFail f e 24 j]
    · simp [adv, adv_adv, List.append_assoc, Nat.add_comm, Nat.add_left_comm, Nat.add_assoc]
      all_goals omega
    · omega
    · exact hs
    · intro i hi
      have := hprev i hi
      simpa [adv, Nat.add_comm, Nat.add_left_comm, Nat.add_assoc] using this
    · have := hfail
      simpa [adv, Nat.add_comm, Nat.add_left_comm, Nat.add_assoc] using this
  · intro e h1
    simp only [retrieve, setSck_fail false e s h1]
  · intro e p hp hsck hr hprev hfail
    have h1 : s.env.sck s.nWrites false = .ok () := by
      simpa using hsck 0 false (by omega)
    simp only [retrieve, setSck_ok false s h1]
    rw [readDout_ok false _ (by simpa [adv] using hr)]
    simp only [delayUs_adv, adv_adv]
    rw [readBits_sckFail_high f e 24 p]
    · simp [adv, adv_adv, List.append_assoc, Nat.add_comm, Nat.add_left_comm, Nat.add_assoc]
      all_goals omega
    · omega
    · intro k lvl hk
      have := hsck (1 + k) lvl (by omega)
      simpa [adv, Nat.add_comm, Nat.add_left_comm, Nat.add_assoc] using this
    · intro i hi
      have := hprev i hi
      simpa [adv, Nat.add_comm, Nat.add_left_comm, Nat.add_assoc] using this
    · have := hfail
      simpa [adv, Nat.add_comm, Nat.add_left_comm, Nat.add_assoc] using this
  · intro e p hp hsck hr hprev hfail
    have h1 : s.env.sck s.nWrites false = .ok () := by
      simpa using hsck 0 false (by omega)
    simp only [retrieve, setSck_ok false s h1]
    rw [readDout_ok false _ (by simpa [adv] using hr)]
    simp only [delayUs_adv, adv_adv]
    rw [readBits_sckFail_low f e 24 p]
    · simp [adv, adv_adv, List.append_assoc, Nat.add_comm, Nat.add_left_comm, Nat.add_assoc]
      all_goals omega
    · omega
    · intro k lvl hk
      have := hsck (1 + k) lvl (by omega)
      simpa [adv, Nat.add_comm, Nat.add_left_comm, Nat.add_assoc] using this
    · intro i hi
      have := hprev i hi
      simpa [adv, Nat.add_comm, Nat.add_left_comm, Nat.add_assoc] using this
    · simp only [adv]
      convert hfail using 2
      omega
  · intro e q hq hsck hd hready hfail
    have h1 : s.env.sck s.nWrites false = .ok () := by
      simpa using hsck 0 false (by omega)
    have hr : s.env.dout s.nReads = .ok false := by
      have := hd s.nReads
      rw [hready] at this
      exact this
    simp only [retrieve, setSck_ok false s h1]
    rw [readDout_ok false _ (by simpa [adv] using hr)]
    simp only [delayUs_adv, adv_adv]
    rw [readBits_okb f 24]
    · dsimp only []
      rw [pulseLoop_sckFail_high e _ q]
      · simp [adv, adv_adv, List.append_assoc, Nat.add_comm, Nat.add_left_comm, Nat.add_assoc]
        all_goals omega
      · exact hq
      · intro k lvl hk
        have := hsck (49 + k) lvl (by omega)
        simpa [adv, Nat.add_comm, Nat.add_left_comm, Nat.add_assoc] using this
      · have := hfail
        simpa [adv, Nat.add_comm, Nat.add_left_comm, Nat.add_assoc] using this
    · intro k lvl hk
      have := hsck (1 + k) lvl (by omega)
      simpa [adv, Nat.add_comm, Nat.add_left_comm, Nat.add_assoc] using this
    · exact hd
  · intro e q hq hsck hd hready hfail
    have h1 : s.env.sck s.nWrites false = .ok () := by
      simpa using hsck 0 false (by omega)
    have hr : s.env.dout s.nReads = .ok false := by
      have := hd s.nReads
      rw [hready] at this
      exact this
    simp only [retrieve, setSck_ok false s h1]
    rw [readDout_ok false _ (by simpa [adv] using hr)]
    simp only [delayUs_adv, adv_adv]
    rw [readBits_okb f 24]
    · dsimp only []
      rw [pulseLoop_sckFail_low e _ q]
      · simp [adv, adv_adv, List.append_assoc, Nat.add_comm, Nat.add_left_comm, Nat.add_assoc]
        all_goals omega
      · exact hq
      · intro k lvl hk
        have := hsck (49 + k) lvl (by omega)
        simpa [adv, Nat.add_comm, Nat.add_left_comm, Nat.add_assoc] using this
      · simp only [adv]
        convert hfail using 2
        omega
    · intro k lvl hk
      have := hsck (1 + k) lvl (by omega)
      simpa [adv, Nat.add_comm, Nat.add_left_comm, Nat.add_assoc] using this
    · exact hd

/-- Witness for C5: each of the seven failure cases evaluated on a concrete
oracle — the readiness sample failing, the 4th bit sample failing, and the
clock failing at the initial drive, at the high drive of bit pulse 2, at
the low drive of bit pulse 0, and at the high and the low drive of the
first trailing pulse. -/
theorem retrieve_error_propagation_witness :
    retrieve (sDoutFailAt 0)
      = (.error (.other (.Input ())), adv 1 1 [.sck false, .doutFail ()] (sDoutFailAt 0)) ∧
    retrieve (sDoutFailAt 4)
      = (.error (.other (.Input ())),
        adv 5 9
          ([.sck false, .dout false, .delay TIME_BEFORE_READOUT]
            ++ bitTrace (fun _ => false) 1 3
            ++ [.sck true, .delay TIME_SCK_HIGH, .sck false, .doutFail ()]) (sDoutFailAt 4)) ∧
    retrieve (sSckFailAt 0 false)
      = (.error (.other (.Output ())), adv 0 1 [.sckFail false ()] (sSckFailAt 0 false)) ∧
    retrieve (sSckFailAt 5 true)
      = (.error (.other (.Output ())),
        adv 3 6
          ([.sck false, .dout false, .delay TIME_BEFORE_READOUT]
            ++ bitTrace (fun _ => false) 1 2 ++ [.sckFail true ()]) (sSckFailAt 5 true)) ∧
    retrieve (sSckFailAt 2 false)
      = (.error (.other (.Output ())),
        adv 1 3
          ([.sck false, .dout false, .delay TIME_BEFORE_READOUT]
            ++ bitTrace (fun _ => false) 1 0
            ++ [.sck true, .delay TIME_SCK_HIGH, .sckFail false ()]) (sSckFailAt 2 false)) ∧
    retrieve (sSckFailAt 49 true)
      = (.error (.other (.Output ())),
        adv 25 50
          ([.sck false, .dout false, .delay TIME_BEFORE_READOUT]
            ++ bitTrace (fun _ => false) 1 24 ++ pulseTrace 0
            ++ [.sckFail true ()]) (sSckFailAt 49 true)) ∧
    retrieve (sSckFailAt 50 false)
      = (.error (.other (.Output ())),
        adv 25 51
          ([.sck false, .dout false, .delay TIME_BEFORE_READOUT]
            ++ bitTrace (fun _ => false) 1 24 ++ pulseTrace 0
            ++ [.sck true, .delay TIME_SCK_HIGH, .sckFail false ()]) (sSckFailAt 50 false)) :=
  ⟨(retrieve_error_propagation (sDoutFailAt 0) (fun _ => false)).1 () rfl rfl,
   (retrieve_error_propagation (sDoutFailAt 4) (fun _ => false)).2.1 () 3 (by omega)
     (fun _ _ => rfl) rfl
     (fun i hi => by
       have hne : 1 + i ≠ 4 := by omega
       simp [sDoutFailAt, envDoutFailAt, hne])
     rfl,
   (retrieve_error_propagation (sSckFailAt 0 false) (fun _ => false)).2.2.1 () rfl,
   (retrieve_error_propagation (sSckFailAt 5 true) (fun _ => false)).2.2.2.1 () 2 (by omega)
     (fun k lvl hk => by
       have hne : k ≠ 5 := by omega
       simp [sSckFailAt, envSckFailAt, hne])
     rfl (fun _ _ => rfl) rfl,
   (retrieve_error_propagation (sSckFailAt 2 false) (fun _ => false)).2.2.2.2.1 () 0 (by omega)
     (fun k lvl hk => by
       have hne : k ≠ 2 := by omega
       simp [sSckFailAt, envSckFailAt, hne])
     rfl (fun i hi => absurd hi (Nat.not_lt_zero i)) rfl,
   (retrieve_error_propagation (sSckFailAt 49 true) (fun _ => false)).2.2.2.2.2.1 () 0
     (by decide)
     (fun k lvl hk => by
       have hne : k ≠ 49 := by omega
       simp [sSckFailAt, envSckFailAt, hne])
     (fun _ => rfl) rfl rfl,
   (retrieve_error_propagation (sSckFailAt 50 false) (fun _ => false)).2.2.2.2.2.2 () 0
     (by decide)
     (fun k lvl hk => by
       have hne : k ≠ 50 := by omega
       simp [sSckFailAt, envSckFailAt, hne])
     (fun _ => rfl) rfl rfl⟩

end Hx711
